import Mathlib

/-!
Verification of the local-cache synchronization engine of the
GrassrootsMobileSurveyApp repository.

The embedding below translates the TypeScript modules
`src/services/database/database.ts` and `src/services/describe.ts`
into Lean. JavaScript objects (records) are modelled as association
lists in entry-insertion order, JavaScript scalar values as the
`JSValue` inductive, and the embedded SQLite store as an explicit
state (`Table`, `Database`) threaded through the operations. SQL
where-clauses are interpreted semantically (a predicate on rows).
-/

namespace Grassroots

/-- A JavaScript scalar value as it occurs in the records handled by the
database layer: `null`, `undefined`, a boolean, a number, or a string. -/
inductive JSValue where
  | jsNull
  | undef
  | bool (b : Bool)
  | num (n : Int)
  | str (s : String)
deriving DecidableEq, Repr

/-- JavaScript truthiness of a `JSValue`: `null`, `undefined`, `false`,
`0` and the empty string are falsy, everything else truthy. -/
def JSValue.truthy : JSValue → Bool
  | .jsNull => false
  | .undef => false
  | .bool b => b
  | .num n => n != 0
  | .str s => !s.isEmpty

/-- The value placed into a generated SQL statement by
`convertObjectToSQLite`: either a string fragment (already quoted and
escaped, or the blank literal) or a raw number. -/
inductive SQLiteLit where
  | text (s : String)
  | int (n : Int)
deriving DecidableEq, Repr

/-- One field of the coercion in `convertObjectToSQLite`
(database.ts lines 263-282): a falsy value becomes the blank literal
`''`; otherwise a string is single-quote-escaped and wrapped in quotes
(the dead inner ternary of the source is kept as the `isEmpty` branch);
a boolean becomes 1 or 0; a number passes through as-is.
`null`/`undefined` are always falsy, so their match arms are
unreachable. -/
def convertValue (value : JSValue) : SQLiteLit :=
  if !value.truthy then
    SQLiteLit.text "\x27\x27"
  else
    match value with
    | JSValue.str s =>
        if s.isEmpty then SQLiteLit.text ""
        else SQLiteLit.text ("\x27" ++ s.replace "\x27" "\x27\x27" ++ "\x27")
    | JSValue.bool b => SQLiteLit.int (if b then 1 else 0)
    | JSValue.num n => SQLiteLit.int n
    | JSValue.jsNull => SQLiteLit.text "\x27\x27"
    | JSValue.undef => SQLiteLit.text "\x27\x27"

/-- `convertObjectToSQLite` (database.ts lines 263-282): converts every
entry value of a record with `convertValue`. The source folds
`Object.entries` into a fresh object with spread; since the keys of a
JavaScript object are distinct, that fold preserves entry order, i.e. it
is a map over the entries. -/
def convertObjectToSQLite (record : List (String × JSValue)) :
    List (String × SQLiteLit) :=
  record.map (fun kv => (kv.1, convertValue kv.2))

/-- Field name and SQLite column type, as in `types/sqlite.ts`. -/
structure SQLiteFieldTypeMapping where
  name : String
  type : String
deriving DecidableEq, Repr

/-- `getFieldTypeMappings` (database.ts lines 240-256): numbers and
booleans map to the `integer` column type, everything else to `text`. -/
def getFieldTypeMappings (record : List (String × JSValue)) :
    List SQLiteFieldTypeMapping :=
  record.map (fun kv =>
    { name := kv.1
      type :=
        match kv.2 with
        | JSValue.num _ => "integer"
        | JSValue.bool _ => "integer"
        | _ => "text" })

/-- A stored row: column name to stored literal, in column order. -/
abbrev Row : Type := List (String × SQLiteLit)

/-- One table of the embedded SQLite store. `hasLocalId` records whether
the table was created by `prepareTable` without an explicit primary key,
in which case its DDL contains the column
`_localId integer primary key autoincrement`; `seq` is the
`sqlite_sequence` counter backing that autoincrement column (the largest
identifier ever assigned, never decreased — SQLite semantics of
`autoincrement`). `schema` keeps the column declarations the table was
created with. -/
structure Table where
  hasLocalId : Bool
  schema : List SQLiteFieldTypeMapping
  rows : List Row
  seq : Nat
deriving DecidableEq

/-- The embedded store: table name to table, in creation order. -/
abbrev Database : Type := List (String × Table)

/-- The failure conditions of the database layer: `invalidArgument` for
the missing-where-clause rejection, `storage` for a failed SQL
statement (e.g. querying a table that does not exist). -/
inductive DBFailure where
  | invalidArgument (msg : String)
  | storage (msg : String)
deriving DecidableEq, Repr

/-- Whether a `DBFailure` is the `InvalidArgument` condition. -/
def DBFailure.isInvalidArgument : DBFailure → Bool
  | .invalidArgument _ => true
  | .storage _ => false

/-- JavaScript falsiness of an optional string argument (`!primaryKey`,
`!whereClause`): `undefined` and the empty string are falsy. -/
def strArgFalsy : Option String → Bool
  | none => true
  | some s => s.isEmpty

/-- `prepareTable` (database.ts lines 206-233): `create table if not
exists` — a no-op when the table is already present, otherwise the
table is created empty; when `primaryKey` is falsy the generated DDL
prepends `_localId integer primary key autoincrement`, modelled by the
`hasLocalId` flag and the sequence counter starting at 0. -/
def prepareTable (db : Database) (tableName : String)
    (fieldTypeMappings : List SQLiteFieldTypeMapping)
    (primaryKey : Option String) : Database :=
  match db.lookup tableName with
  | some _ => db
  | none =>
      db ++ [(tableName,
        { hasLocalId := strArgFalsy primaryKey
          schema := fieldTypeMappings
          rows := []
          seq := 0 })]

/-- The column list of the `create table` statement built by
`prepareTable` (database.ts lines 212-222): each field as
`name type`, the primary-key field suffixed `primary key`, and —
when `primaryKey` is falsy — the synthetic
`_localId integer primary key autoincrement` column prepended. -/
def prepareTableFieldsClause (fieldTypeMappings : List SQLiteFieldTypeMapping)
    (primaryKey : Option String) : String :=
  let fieldsWithType := String.intercalate ","
    (fieldTypeMappings.map (fun field =>
      if some field.name = primaryKey then
        field.name ++ " " ++ field.type ++ " primary key"
      else
        field.name ++ " " ++ field.type))
  let localIdCol := "_localId integer primary key autoincrement"
  if strArgFalsy primaryKey then localIdCol ++ "," ++ fieldsWithType
  else fieldsWithType

/-- Insert converted records into a table whose DDL declared the
synthetic `_localId integer primary key autoincrement` column: per
SQLite `autoincrement` semantics each new row is assigned
identifier `seq + 1` and the sequence counter advances, so identifiers
are never reused even after deletes. Returns the table after the insert
together with the list of identifiers assigned, in order. -/
def insertRowStep (t : Table) (r : List (String × JSValue)) : Table :=
  { t with
      rows := t.rows ++
        [("_localId", SQLiteLit.int (Int.ofNat (t.seq + 1))) ::
          convertObjectToSQLite r]
      seq := t.seq + 1 }

def insertWithLocalId (t : Table)
    (records : List (List (String × JSValue))) : Table × List Nat :=
  match records with
  | [] => (t, [])
  | r :: rest =>
      ((insertWithLocalId (insertRowStep t r) rest).1,
       (t.seq + 1) :: (insertWithLocalId (insertRowStep t r) rest).2)

/-- Insert converted records into a table with an explicit primary key
(no synthetic identifier column). -/
def insertPlain (t : Table) (records : List (List (String × JSValue))) :
    Table :=
  { t with rows := t.rows ++ records.map convertObjectToSQLite }

/-- Replace the named table's state. -/
def replaceTable (db : Database) (tableName : String) (t : Table) :
    Database :=
  db.map (fun p => if p.1 == tableName then (tableName, t) else p)

/-- The value `saveRecords` resolves with: `emptyResult` for the early
`resolve([])` on an empty record list, otherwise the SQLite result set
of the single bulk `insert` statement. -/
inductive SaveResult where
  | emptyResult
  | resultSet (rowsAffected : Nat)
deriving DecidableEq, Repr

/-- `saveRecords` (database.ts lines 103-128): resolves `[]` at once
when `records` is empty, touching neither `prepareTable` nor any
statement; otherwise infers the schema from the first record, ensures
the table and bulk-inserts every record in one statement (rows of a
`_localId` table receive consecutive synthetic identifiers). -/
def saveRecords (db : Database) (tableName : String)
    (records : List (List (String × JSValue)))
    (primaryKey : Option String) : Database × SaveResult :=
  match records with
  | [] => (db, SaveResult.emptyResult)
  | first :: _ =>
      let fieldTypeMappings := getFieldTypeMappings first
      let db1 := prepareTable db tableName fieldTypeMappings primaryKey
      match db1.lookup tableName with
      | none => (db1, SaveResult.resultSet 0)
      | some t =>
          let t2 :=
            if t.hasLocalId then (insertWithLocalId t records).1
            else insertPlain t records
          (replaceTable db1 tableName t2, SaveResult.resultSet records.length)

/-- `getAllRecords` (database.ts lines 12-25): `select * from t` —
resolves every row of the table; the only failure is the SQL statement
failing (here: the table does not exist), surfaced as a storage error. -/
def getAllRecords (db : Database) (tableName : String) :
    Except DBFailure (List Row) :=
  match db.lookup tableName with
  | some t => Except.ok t.rows
  | none => Except.error (DBFailure.storage ("no such table: " ++ tableName))

/-- `getRecords` (database.ts lines 54-70): rejects with the
InvalidArgument condition when the where clause is falsy
(`undefined` or empty); otherwise resolves the rows matching the
clause, whose semantics is supplied as the predicate `evalWhere`. -/
def getRecords (evalWhere : String → Row → Bool) (db : Database)
    (tableName : String) (whereClause : Option String) :
    Except DBFailure (List Row) :=
  if strArgFalsy whereClause then
    Except.error (DBFailure.invalidArgument
      "Specify where clause or use \x22getAllRecords\x22 instead.")
  else
    match db.lookup tableName with
    | some t => Except.ok (t.rows.filter (evalWhere (whereClause.getD "")))
    | none =>
        Except.error (DBFailure.storage ("no such table: " ++ tableName))

/-- `deleteRecord` (database.ts lines 186-198):
`delete from t where _localId = id` — removes exactly the rows whose
`_localId` column equals the given identifier; the sequence counter is
untouched (SQLite keeps `sqlite_sequence` on delete). -/
def deleteRow (t : Table) (id : Nat) : Table :=
  { t with
      rows := t.rows.filter (fun row =>
        row.lookup "_localId" != some (SQLiteLit.int (Int.ofNat id))) }

/-- Set one column of a row to a new value (the effect of one
`key = value` pair of an `update` statement on a matching row); a
column the row does not have is left alone. -/
def setField (row : Row) (key : String) (value : SQLiteLit) : Row :=
  row.map (fun p => if p.1 == key then (p.1, value) else p)

/-- Apply every `key = value` pair of an update statement to a row. -/
def applyFieldUpdates (row : Row) (pairs : List (String × SQLiteLit)) :
    Row :=
  pairs.foldl (fun r kv => setField r kv.1 kv.2) row

/-- `updateRecord` (database.ts lines 136-156): first deletes from the
caller's record object every key whose value is strictly `null`
(mutating the argument in place — modelled by returning the record's
post-call state), then builds `key = value` pairs with
`convertObjectToSQLite` and sets those columns on every row matching
the where clause (supplied as the predicate `rowMatches`). Returns the
rows after the update together with the caller's record as the call
leaves it. -/
def updateRecord (rows : List Row) (record : List (String × JSValue))
    (rowMatches : Row → Bool) :
    List Row × List (String × JSValue) :=
  let record1 := record.filter (fun kv => kv.2 ≠ JSValue.jsNull)
  let pairs := convertObjectToSQLite record1
  (rows.map (fun r => if rowMatches r then applyFieldUpdates r pairs else r),
   record1)

/-- A cached page-layout section row (`types/sqlite.ts`), as stored by
the metadata refresh and read back by `buildLayoutDetail`. -/
structure SQLitePageLayoutSection where
  id : String
  layoutId : String
  sectionLabel : String
deriving DecidableEq, Repr

/-- A cached page-layout item row (`types/sqlite.ts`); `required` is
stored as a SQLite integer. -/
structure SQLitePageLayoutItem where
  sectionId : String
  fieldName : String
  fieldLabel : String
  fieldType : String
  required : Int
deriving DecidableEq, Repr

/-- One field descriptor of the assembled layout (`types/survey.ts`):
name, label, type and the `!!item.required` coercion to a boolean. -/
structure LayoutField where
  name : String
  label : String
  fieldType : String
  required : Bool
deriving DecidableEq, Repr

/-- One assembled section: id, title and its ordered field list. -/
structure LayoutSection where
  id : String
  title : String
  data : List LayoutField
deriving DecidableEq, Repr

/-- The assembled layout (`types/survey.ts`): ordered sections. -/
structure SurveyLayout where
  sections : List LayoutSection
deriving DecidableEq, Repr

/-- One step of the `{...result, [k]: v}` object update in the grouping
fold of `buildLayoutDetail`: when the key is already present its value
is replaced in place (JavaScript keeps an existing key's position);
otherwise the key is appended. -/
def setGroup (m : List (String × List SQLitePageLayoutItem)) (k : String)
    (v : List SQLitePageLayoutItem) :
    List (String × List SQLitePageLayoutItem) :=
  if m.any (fun p => p.1 == k) then
    m.map (fun p => if p.1 == k then (k, v) else p)
  else
    m ++ [(k, v)]

/-- The `items.reduce` of `buildLayoutDetail` (describe.ts lines
87-93): group the items by section id, each group keeping its items in
original order (`[...(result[item.sectionId] || []), item]`). -/
def sectionIdToItems (items : List SQLitePageLayoutItem) :
    List (String × List SQLitePageLayoutItem) :=
  items.foldl
    (fun result item =>
      setGroup result item.sectionId
        ((result.lookup item.sectionId).getD [] ++ [item]))
    []

/-- The per-item field descriptor built in `buildLayoutDetail`
(describe.ts lines 100-105), with `required: !!item.required`. -/
def itemToLayoutField (item : SQLitePageLayoutItem) : LayoutField :=
  { name := item.fieldName
    label := item.fieldLabel
    fieldType := item.fieldType
    required := item.required != 0 }

/-- `buildLayoutDetail` (describe.ts lines 72-111): reads the cached
sections of the layout (`where layoutId='...'`), then the cached items
whose `sectionId` is among those sections' ids (`where sectionId in
(...)`), groups the items by section id, and emits one section per
cached section row — a section absent from the grouping (no items)
gets an empty `data` array. The two `getRecords` where-clauses are
interpreted semantically as the corresponding filters over the cached
section and item tables, which are passed in row-insertion order. -/
def buildLayoutDetail (sectionsTable : List SQLitePageLayoutSection)
    (itemsTable : List SQLitePageLayoutItem) (layoutId : String) :
    SurveyLayout :=
  let sections := sectionsTable.filter (fun s => s.layoutId == layoutId)
  let sectionIds := sections.map (fun s => s.id)
  let items := itemsTable.filter (fun i => sectionIds.contains i.sectionId)
  let grouped := sectionIdToItems items
  { sections :=
      sections.map (fun s =>
        { id := s.id
          title := s.sectionLabel
          data :=
            match grouped.lookup s.id with
            | some l => l.map itemToLayoutField
            | none => [] }) }

/-- A value thrown by the remote side during the metadata refresh; its
`error` field (when present) carries the remote error code, as
inspected by the catch block of `retrieveAllMetadata`. -/
structure ThrownError where
  error : Option String
deriving DecidableEq, Repr

/-- The user-facing message for an invalid record type. -/
def invalidRecordTypeMessage : String :=
  "Invalid record type on Survey object. Contact your administrator."

/-- The user-facing message for a layout with no editable fields. -/
def noEditableFieldsMessage : String :=
  "No editable fields on Survey layout. Contact your administrator."

/-- The generic user-facing message for every other refresh failure. -/
def unexpectedErrorMessage : String :=
  "Unexpected error occured while retrieving survey settings. Contact your administrator."

/-- `retrieveAllMetadata` (describe.ts lines 19-66). The refresh body
(clearing tables, fetching record types, layouts and localization —
the helpers live in `services/salesforce`, outside the database layer)
is abstracted as its outcome `body`; the catch block of lines 57-65 is
embedded literally: a thrown value whose `error` field is
`invalid_record_type` or `no_editable_fields` is translated to the
corresponding specific message, anything else to the generic message. -/
def retrieveAllMetadata (body : Except ThrownError Unit) :
    Except String Unit :=
  match body with
  | Except.ok u => Except.ok u
  | Except.error e =>
      if e.error = some "invalid_record_type" then
        Except.error invalidRecordTypeMessage
      else if e.error = some "no_editable_fields" then
        Except.error noEditableFieldsMessage
      else
        Except.error unexpectedErrorMessage

/-- The local sync state of a survey record (`_syncStatus`). -/
inductive SyncStatus where
  | synced
  | unsynced
deriving DecidableEq, Repr

/-- A locally stored survey as the Sync Reconciler sees it: its
synthetic identifier, its sync flag, and its field payload. -/
structure LocalSurvey where
  localId : Nat
  syncStatus : SyncStatus
  fields : List (String × JSValue)
deriving DecidableEq, Repr

/-- Modelled from the spec: `syncLocalSurveys` (src/services/sync.ts)
is not among the provided sources — only its caller
(`SurveyListHeaderButtons.tsx`) is. Per spec sections 4.5 and 7, the
reconciler walks the given records in order; for each it attempts the
remote create-or-update call (abstracted as the outcome predicate
`remoteOk`); on success the local row is marked SYNCED, on failure it
is left untouched (hence still UNSYNCED) and the walk continues; the
aggregate succeeded/failed counts are reported and no local record is
ever deleted. -/
def syncLocalSurveys (remoteOk : LocalSurvey → Bool)
    (surveys : List LocalSurvey) : List LocalSurvey × Nat × Nat :=
  surveys.foldl
    (fun acc s =>
      if remoteOk s then
        (acc.1 ++ [{ s with syncStatus := SyncStatus.synced }],
         acc.2.1 + 1, acc.2.2)
      else
        (acc.1 ++ [s], acc.2.1, acc.2.2 + 1))
    ([], 0, 0)

/-- One operation of a client session against a table created without
an explicit primary key: a `saveRecords` bulk insert or a
`deleteRecord`. -/
inductive StoreOp where
  | save (records : List (List (String × JSValue)))
  | delete (id : Nat)

/-- Apply one operation to the table, returning the synthetic
identifiers assigned by an insert. -/
def applyOp (t : Table) (op : StoreOp) : Table × List Nat :=
  match op with
  | StoreOp.save records => insertWithLocalId t records
  | StoreOp.delete id => (deleteRow t id, [])

/-- Run a session of operations, concatenating the synthetic
identifiers assigned over time. -/
def runOps (t : Table) (ops : List StoreOp) : Table × List Nat :=
  match ops with
  | [] => (t, [])
  | op :: rest =>
      ((runOps (applyOp t op).1 rest).1,
       (applyOp t op).2 ++ (runOps (applyOp t op).1 rest).2)

/-- The synthetic identifier stored in a row's `_localId` column, when
present and a non-negative integer. -/
def localIdOfRow (row : Row) : Option Nat :=
  match row.lookup "_localId" with
  | some (SQLiteLit.int (Int.ofNat n)) => some n
  | _ => none

/-- The `_localId` values of the rows currently in the table. -/
def currentLocalIds (t : Table) : List Nat :=
  t.rows.filterMap localIdOfRow

/-- The invariant the autoincrement table maintains: the identifiers of
the current rows are strictly increasing in row order and bounded by
the sequence counter. -/
def TableInv (t : Table) : Prop :=
  (currentLocalIds t).Pairwise (· < ·) ∧
    ∀ i ∈ currentLocalIds t, i ≤ t.seq

/-! ### Association-list lemmas -/

theorem lookup_map_value {α β γ : Type} [BEq α] (f : β → γ)
    (l : List (α × β)) (k : α) :
    (l.map (fun kv => (kv.1, f kv.2))).lookup k =
      (l.lookup k).map f := by
  induction l with
  | nil => rfl
  | cons kv rest ih =>
      obtain ⟨k1, v1⟩ := kv
      simp only [List.map_cons, List.lookup_cons]
      cases h : k == k1 <;> simp [ih]

theorem lookup_eq_none_of_not_mem_keys {α β : Type} [BEq α] [LawfulBEq α]
    (l : List (α × β)) (k : α) (h : k ∉ l.map Prod.fst) :
    l.lookup k = none := by
  induction l with
  | nil => rfl
  | cons kv rest ih =>
      obtain ⟨k1, v1⟩ := kv
      simp only [List.map_cons, List.mem_cons] at h
      push_neg at h
      rw [List.lookup_cons]
      have hne : (k == k1) = false := by
        simpa using h.1
      rw [hne]
      exact ih h.2

theorem keys_filter_subset {α β : Type} (q : α × β → Bool) (l : List (α × β)) :
    ∀ k, k ∈ (l.filter q).map Prod.fst → k ∈ l.map Prod.fst := by
  intro k hk
  rcases List.mem_map.mp hk with ⟨x, hx, rfl⟩
  exact List.mem_map_of_mem Prod.fst (List.mem_of_mem_filter hx)

theorem lookup_filter_value {α β : Type} [BEq α] [LawfulBEq α]
    (p : β → Bool) (l : List (α × β)) (k : α)
    (h : (l.map Prod.fst).Nodup) :
    (l.filter (fun kv => p kv.2)).lookup k =
      (l.lookup k).bind (fun v => if p v then some v else none) := by
  induction l with
  | nil => rfl
  | cons kv rest ih =>
      obtain ⟨k1, v1⟩ := kv
      simp only [List.map_cons, List.nodup_cons] at h
      by_cases hk : k = k1
      · subst hk
        by_cases hp : p v1
        · simp [List.filter_cons, hp, List.lookup_cons]
        · simp only [List.filter_cons, hp, Bool.false_eq_true, if_false,
            List.lookup_cons, beq_self_eq_true, Option.bind_some]
          rw [lookup_eq_none_of_not_mem_keys]
          · simp [hp]
          · intro hmem
            exact h.1 (keys_filter_subset _ rest k hmem)
      · have hne : (k == k1) = false := by simpa using hk
        by_cases hp : p v1
        · simp only [List.filter_cons, hp, if_true, List.lookup_cons, hne]
          exact ih h.2
        · simp only [List.filter_cons, hp, Bool.false_eq_true, if_false,
            List.lookup_cons, hne]
          exact ih h.2

theorem lookup_append {α β : Type} [BEq α] (l1 l2 : List (α × β)) (k : α) :
    (l1 ++ l2).lookup k =
      match l1.lookup k with
      | some v => some v
      | none => l2.lookup k := by
  induction l1 with
  | nil => rfl
  | cons kv rest ih =>
      obtain ⟨k1, v1⟩ := kv
      simp only [List.cons_append, List.lookup_cons]
      cases h : k == k1 <;> simp [ih]

/-! ### Lemmas about `setField` and `applyFieldUpdates` -/

theorem lookup_setField_self (row : Row) (k : String) (v : SQLiteLit) :
    (setField row k v).lookup k = (row.lookup k).map (fun _ => v) := by
  induction row with
  | nil => rfl
  | cons p rest ih =>
      obtain ⟨k1, v1⟩ := p
      by_cases h : k1 = k
      · subst h
        simp [setField, List.lookup_cons]
      · have h1 : (k1 == k) = false := by simpa using h
        have h2 : (k == k1) = false := by simpa using Ne.symm h
        simp only [setField, List.map_cons, h1, Bool.false_eq_true, if_false,
          List.lookup_cons, h2]
        exact ih

theorem lookup_setField_ne (row : Row) (k k' : String) (v : SQLiteLit)
    (h : k' ≠ k) :
    (setField row k v).lookup k' = row.lookup k' := by
  induction row with
  | nil => rfl
  | cons p rest ih =>
      obtain ⟨k1, v1⟩ := p
      by_cases h1 : k1 = k
      · subst h1
        have h2 : (k' == k1) = false := by simpa using h
        simp only [setField, List.map_cons, beq_self_eq_true, if_true,
          List.lookup_cons, h2]
        exact ih
      · have h1f : (k1 == k) = false := by simpa using h1
        simp only [setField, List.map_cons, h1f, Bool.false_eq_true, if_false,
          List.lookup_cons]
        cases h2 : k' == k1
        · exact ih
        · rfl

theorem applyFieldUpdates_lookup (pairs : List (String × SQLiteLit)) :
    ∀ (row : Row) (k : String), (pairs.map Prod.fst).Nodup →
    (applyFieldUpdates row pairs).lookup k =
      match pairs.lookup k with
      | some v => (row.lookup k).map (fun _ => v)
      | none => row.lookup k := by
  induction pairs with
  | nil =>
      intro row k _
      rfl
  | cons kv rest ih =>
      intro row k hnd
      obtain ⟨k0, v0⟩ := kv
      simp only [List.map_cons, List.nodup_cons] at hnd
      have step : applyFieldUpdates row ((k0, v0) :: rest) =
          applyFieldUpdates (setField row k0 v0) rest := rfl
      rw [step, ih (setField row k0 v0) k hnd.2]
      by_cases hk : k = k0
      · subst hk
        have hrest : rest.lookup k = none :=
          lookup_eq_none_of_not_mem_keys rest k hnd.1
        simp [hrest, List.lookup_cons, lookup_setField_self]
      · have hne : (k == k0) = false := by simpa using hk
        rw [lookup_setField_ne row k0 k v0 hk]
        simp only [List.lookup_cons, hne]

/-! ### Lemmas about the grouping fold of `buildLayoutDetail` -/

theorem lookup_replaceAll (m : List (String × List SQLitePageLayoutItem))
    (k : String) (v : List SQLitePageLayoutItem) :
    (m.map (fun p => if p.1 == k then (k, v) else p)).lookup k =
      if m.any (fun p => p.1 == k) then some v else none := by
  induction m with
  | nil => rfl
  | cons p rest ih =>
      obtain ⟨k1, v1⟩ := p
      by_cases h : k1 = k
      · subst h
        simp [List.lookup_cons]
      · have h1 : (k1 == k) = false := by simpa using h
        have h2 : (k == k1) = false := by simpa using Ne.symm h
        simp only [List.map_cons, h1, Bool.false_eq_true, if_false,
          List.lookup_cons, h2, List.any_cons, Bool.false_or]
        exact ih

theorem lookup_replaceAll_ne (m : List (String × List SQLitePageLayoutItem))
    (k k' : String) (v : List SQLitePageLayoutItem) (h : k' ≠ k) :
    (m.map (fun p => if p.1 == k then (k, v) else p)).lookup k' =
      m.lookup k' := by
  induction m with
  | nil => rfl
  | cons p rest ih =>
      obtain ⟨k1, v1⟩ := p
      by_cases h1 : k1 = k
      · subst h1
        have h2 : (k' == k1) = false := by simpa using h
        simp only [List.map_cons, beq_self_eq_true, if_true, List.lookup_cons,
          h2]
        exact ih
      · have h1f : (k1 == k) = false := by simpa using h1
        simp only [List.map_cons, h1f, Bool.false_eq_true, if_false,
          List.lookup_cons]
        cases h2 : k' == k1
        · exact ih
        · rfl

theorem lookup_setGroup_self (m : List (String × List SQLitePageLayoutItem))
    (k : String) (v : List SQLitePageLayoutItem) :
    (setGroup m k v).lookup k = some v := by
  unfold setGroup
  by_cases h : m.any (fun p => p.1 == k)
  · rw [if_pos h, lookup_replaceAll, if_pos h]
  · rw [if_neg h, lookup_append]
    have hnone : m.lookup k = none := by
      apply lookup_eq_none_of_not_mem_keys
      intro hmem
      apply h
      rcases List.mem_map.mp hmem with ⟨x, hx, rfl⟩
      exact List.any_eq_true.mpr ⟨x, hx, by simp⟩
    simp [hnone, List.lookup_cons]

theorem lookup_setGroup_ne (m : List (String × List SQLitePageLayoutItem))
    (k k' : String) (v : List SQLitePageLayoutItem) (h : k' ≠ k) :
    (setGroup m k v).lookup k' = m.lookup k' := by
  unfold setGroup
  by_cases hany : m.any (fun p => p.1 == k)
  · rw [if_pos hany]
    exact lookup_replaceAll_ne m k k' v h
  · rw [if_neg hany, lookup_append]
    have h2 : (k' == k) = false := by simpa using h
    cases hm : m.lookup k'
    · simp [List.lookup_cons, h2]
    · rfl

theorem sectionIdToItems_foldl_getD (its : List SQLitePageLayoutItem) :
    ∀ (m : List (String × List SQLitePageLayoutItem)) (sid : String),
    (((its.foldl
        (fun result item =>
          setGroup result item.sectionId
            ((result.lookup item.sectionId).getD [] ++ [item]))
        m).lookup sid).getD []) =
      (m.lookup sid).getD [] ++
        its.filter (fun i => i.sectionId == sid) := by
  induction its with
  | nil =>
      intro m sid
      simp
  | cons it rest ih =>
      intro m sid
      simp only [List.foldl_cons]
      rw [ih]
      by_cases h : it.sectionId = sid
      · subst h
        rw [lookup_setGroup_self]
        simp only [List.filter_cons, beq_self_eq_true, if_true,
          Option.getD_some]
        simp [List.append_assoc]
      · have hne : sid ≠ it.sectionId := Ne.symm h
        rw [lookup_setGroup_ne _ _ _ _ hne]
        have hf : (it.sectionId == sid) = false := by simpa using h
        simp only [List.filter_cons, hf, Bool.false_eq_true, if_false]

/-- The `data` array of a section in `buildLayoutDetail` equals the map
over the grouped items with default `[]`, whether or not the section id
is present in the grouping. -/
theorem match_lookup_eq_getD (o : Option (List SQLitePageLayoutItem)) :
    (match o with
     | some l => l.map itemToLayoutField
     | none => ([] : List LayoutField)) =
      (o.getD []).map itemToLayoutField := by
  cases o <;> rfl

theorem sectionIdToItems_lookup_getD (items : List SQLitePageLayoutItem)
    (sid : String) :
    ((sectionIdToItems items).lookup sid).getD [] =
      items.filter (fun i => i.sectionId == sid) := by
  unfold sectionIdToItems
  rw [sectionIdToItems_foldl_getD]
  rfl

theorem filter_sectionIds_collapse (itemsTable : List SQLitePageLayoutItem)
    (sectionIds : List String) (sid : String) (hmem : sid ∈ sectionIds) :
    (itemsTable.filter
        (fun i => sectionIds.contains i.sectionId)).filter
      (fun i => i.sectionId == sid) =
      itemsTable.filter (fun i => i.sectionId == sid) := by
  rw [List.filter_filter]
  apply List.filter_congr
  intro i _
  cases hI : i.sectionId == sid
  · simp
  · have heq : i.sectionId = sid := by simpa using hI
    subst heq
    simp [hmem]

/-- C5: for every layout identifier, `buildLayoutDetail` emits one
section entry per cached section row of that layout, in stored section
order, each carrying exactly its own cached items mapped to field
descriptors in original insertion order — and a section with no cached
items yields an entry with an empty `data` array rather than being
omitted. -/
theorem buildLayoutDetail_spec (sectionsTable : List SQLitePageLayoutSection)
    (itemsTable : List SQLitePageLayoutItem) (layoutId : String) :
    (buildLayoutDetail sectionsTable itemsTable layoutId).sections =
      (sectionsTable.filter (fun s => s.layoutId == layoutId)).map (fun s =>
        { id := s.id
          title := s.sectionLabel
          data := (itemsTable.filter
              (fun i => i.sectionId == s.id)).map itemToLayoutField }) := by
  simp only [buildLayoutDetail]
  apply List.map_congr_left
  intro s hs
  simp only [LayoutSection.mk.injEq, true_and]
  have hmem : s.id ∈
      (sectionsTable.filter (fun s => s.layoutId == layoutId)).map
        (fun s => s.id) :=
    List.mem_map_of_mem (fun s => s.id) hs
  cases hlk : ((sectionIdToItems
      (itemsTable.filter (fun i =>
        ((sectionsTable.filter (fun s => s.layoutId == layoutId)).map
          (fun s => s.id)).contains i.sectionId))).lookup s.id) with
  | none =>
      have hgd := sectionIdToItems_lookup_getD
        (itemsTable.filter (fun i =>
          ((sectionsTable.filter (fun s => s.layoutId == layoutId)).map
            (fun s => s.id)).contains i.sectionId)) s.id
      rw [hlk] at hgd
      simp only [Option.getD_none] at hgd
      rw [filter_sectionIds_collapse itemsTable _ s.id hmem] at hgd
      rw [← hgd]
      simp
  | some l =>
      have hgd := sectionIdToItems_lookup_getD
        (itemsTable.filter (fun i =>
          ((sectionsTable.filter (fun s => s.layoutId == layoutId)).map
            (fun s => s.id)).contains i.sectionId)) s.id
      rw [hlk] at hgd
      simp only [Option.getD_some] at hgd
      rw [filter_sectionIds_collapse itemsTable _ s.id hmem] at hgd
      rw [← hgd]

/-! ### Claim theorems -/

/-- C1 (failing input for the claim "booleans serialize as 1/0"): the
falsy check of `convertObjectToSQLite` precedes its boolean branch, so
a `false` field value serializes as the blank-text literal, not as the
integer 0 — even though `true` does serialize as the integer 1 and the
code's own comment on the boolean branch reads "1: true, 0: false". -/
theorem convertObjectToSQLite_bool_false_blank :
    convertObjectToSQLite [("active", JSValue.bool false)] =
      [("active", SQLiteLit.text "\x27\x27")] ∧
    convertObjectToSQLite [("active", JSValue.bool true)] =
      [("active", SQLiteLit.int 1)] :=
  ⟨rfl, rfl⟩

/-- C2: in every record handed to a write, a falsy non-boolean field
value (numeric 0, empty string, null, undefined) serializes as the
blank-text literal, and a truthy string value serializes quoted with
every single quote doubled. -/
theorem convertObjectToSQLite_falsy_and_string_spec
    (record : List (String × JSValue)) (k : String) (v : JSValue)
    (hmem : (k, v) ∈ record) :
    (v.truthy = false → (∀ b, v ≠ JSValue.bool b) →
      (k, SQLiteLit.text "\x27\x27") ∈ convertObjectToSQLite record) ∧
    (∀ s, v = JSValue.str s → s ≠ "" →
      (k, SQLiteLit.text ("\x27" ++ s.replace "\x27" "\x27\x27" ++ "\x27")) ∈
        convertObjectToSQLite record) := by
  constructor
  · intro hfalsy _
    have hconv : convertValue v = SQLiteLit.text "\x27\x27" := by
      unfold convertValue
      rw [hfalsy]
      rfl
    have := List.mem_map_of_mem
      (fun kv : String × JSValue => (kv.1, convertValue kv.2)) hmem
    simpa [convertObjectToSQLite, hconv] using this
  · intro s hv hs
    subst hv
    have hne : s.isEmpty = false := by
      cases he : s.isEmpty
      · rfl
      · exact absurd ((String.isEmpty_iff s).mp he) hs
    have hconv : convertValue (JSValue.str s) =
        SQLiteLit.text ("\x27" ++ s.replace "\x27" "\x27\x27" ++ "\x27") := by
      unfold convertValue
      simp [JSValue.truthy, hne]
    have := List.mem_map_of_mem
      (fun kv : String × JSValue => (kv.1, convertValue kv.2)) hmem
    simpa [convertObjectToSQLite, hconv] using this

/-- C2 witness: the record of the spec's round-trip scenario — `count: 0`
serializes as blank text (not as 0) and the quoted string escapes its
single quote. -/
theorem convertObjectToSQLite_falsy_and_string_spec_witness :
    (("count", JSValue.num 0) ∈
        ([("name", JSValue.str "A\x27B"), ("count", JSValue.num 0)] :
          List (String × JSValue))) ∧
    ("count", SQLiteLit.text "\x27\x27") ∈
      convertObjectToSQLite
        [("name", JSValue.str "A\x27B"), ("count", JSValue.num 0)] ∧
    ("name", SQLiteLit.text
        ("\x27" ++ ("A\x27B".replace "\x27" "\x27\x27") ++ "\x27")) ∈
      convertObjectToSQLite
        [("name", JSValue.str "A\x27B"), ("count", JSValue.num 0)] := by
  refine ⟨by decide, ?_, ?_⟩
  · exact (convertObjectToSQLite_falsy_and_string_spec
      [("name", JSValue.str "A\x27B"), ("count", JSValue.num 0)]
      "count" (JSValue.num 0) (by decide)).1 (by decide) (by decide)
  · exact (convertObjectToSQLite_falsy_and_string_spec
      [("name", JSValue.str "A\x27B"), ("count", JSValue.num 0)]
      "name" (JSValue.str "A\x27B") (by decide)).2 "A\x27B" rfl (by decide)

/-- C3: every remote-side failure of the metadata refresh is translated
by the catch block of `retrieveAllMetadata`: the two known remote error
codes yield their specific user-facing messages, every other thrown
value yields the single generic message, and no error ever propagates
untranslated. -/
theorem retrieveAllMetadata_error_translation (e : ThrownError) :
    (retrieveAllMetadata (Except.error e) =
      Except.error
        (if e.error = some "invalid_record_type" then invalidRecordTypeMessage
         else if e.error = some "no_editable_fields" then
           noEditableFieldsMessage
         else unexpectedErrorMessage)) ∧
    (∀ msg, retrieveAllMetadata (Except.error e) = Except.error msg →
      msg = invalidRecordTypeMessage ∨ msg = noEditableFieldsMessage ∨
        msg = unexpectedErrorMessage) := by
  have key : retrieveAllMetadata (Except.error e) =
      Except.error
        (if e.error = some "invalid_record_type" then invalidRecordTypeMessage
         else if e.error = some "no_editable_fields" then
           noEditableFieldsMessage
         else unexpectedErrorMessage) := by
    simp only [retrieveAllMetadata]
    by_cases h1 : e.error = some "invalid_record_type"
    · rw [if_pos h1, if_pos h1]
    · rw [if_neg h1, if_neg h1]
      by_cases h2 : e.error = some "no_editable_fields"
      · rw [if_pos h2, if_pos h2]
      · rw [if_neg h2, if_neg h2]
  refine ⟨key, ?_⟩
  intro msg hmsg
  rw [key] at hmsg
  injection hmsg with h
  subst h
  by_cases h1 : e.error = some "invalid_record_type"
  · rw [if_pos h1]
    exact Or.inl rfl
  · rw [if_neg h1]
    by_cases h2 : e.error = some "no_editable_fields"
    · rw [if_pos h2]
      exact Or.inr (Or.inl rfl)
    · rw [if_neg h2]
      exact Or.inr (Or.inr rfl)

/-- C3 witness: the `invalid_record_type` code maps to its specific
message. -/
theorem retrieveAllMetadata_error_translation_witness :
    retrieveAllMetadata (Except.error ⟨some "invalid_record_type"⟩) =
      Except.error invalidRecordTypeMessage ∧
    (retrieveAllMetadata (Except.error ⟨none⟩) = Except.error
        unexpectedErrorMessage →
      unexpectedErrorMessage = invalidRecordTypeMessage ∨
      unexpectedErrorMessage = noEditableFieldsMessage ∨
      unexpectedErrorMessage = unexpectedErrorMessage) := by
  constructor
  · have h := (retrieveAllMetadata_error_translation
      ⟨some "invalid_record_type"⟩).1
    simpa using h
  · exact (retrieveAllMetadata_error_translation ⟨none⟩).2
      unexpectedErrorMessage

/-- C8: `saveRecords` on an empty record list resolves the empty result
at once and leaves the whole store untouched — no table creation, no
insert, no statement. -/
theorem saveRecords_empty_noop (db : Database) (tableName : String)
    (primaryKey : Option String) :
    saveRecords db tableName [] primaryKey = (db, SaveResult.emptyResult) :=
  rfl

theorem applyFieldUpdates_nil_row (pairs : List (String × SQLiteLit)) :
    applyFieldUpdates [] pairs = [] := by
  induction pairs with
  | nil => rfl
  | cons kv rest ih =>
      have hstep : applyFieldUpdates [] (kv :: rest) =
          applyFieldUpdates (setField [] kv.1 kv.2) rest := rfl
      rw [hstep]
      exact ih

theorem convertObjectToSQLite_keys (record : List (String × JSValue)) :
    (convertObjectToSQLite record).map Prod.fst = record.map Prod.fst := by
  induction record with
  | nil => rfl
  | cons kv rest ih =>
      simp only [convertObjectToSQLite, List.map_cons] at ih ⊢
      rw [ih]

theorem getD_map_row (rows : List Row) (f : Row → Row) (hf : f [] = [])
    (i : Nat) : (rows.map f).getD i [] = f (rows.getD i []) := by
  rw [List.getD_eq_getElem?_getD, List.getElem?_map,
    List.getD_eq_getElem?_getD]
  cases rows[i]? <;> simp [hf]

theorem convertObjectToSQLite_lookup (record : List (String × JSValue))
    (k : String) :
    (convertObjectToSQLite record).lookup k =
      (record.lookup k).map convertValue := by
  simpa [convertObjectToSQLite] using lookup_map_value convertValue record k

/-- C6: `updateRecord` excludes from the generated update every field
whose value is null or absent — such a column is unchanged in every
row — and sets every other supplied field (to its coerced value) on
every row matching the filter; rows not matching the filter are
untouched. Rows are addressed positionally with default `[]`. -/
theorem updateRecord_spec (rows : List Row)
    (record : List (String × JSValue)) (rowMatches : Row → Bool) (i : Nat)
    (k : String) (hrec : (record.map Prod.fst).Nodup) :
    (rowMatches (rows.getD i []) = false →
      (updateRecord rows record rowMatches).1.getD i [] = rows.getD i []) ∧
    (record.lookup k = some JSValue.jsNull →
      ((updateRecord rows record rowMatches).1.getD i []).lookup k =
        (rows.getD i []).lookup k) ∧
    (record.lookup k = none →
      ((updateRecord rows record rowMatches).1.getD i []).lookup k =
        (rows.getD i []).lookup k) ∧
    (∀ v, record.lookup k = some v → v ≠ JSValue.jsNull →
      rowMatches (rows.getD i []) = true →
      ((updateRecord rows record rowMatches).1.getD i []).lookup k =
        ((rows.getD i []).lookup k).map (fun _ => convertValue v)) := by
  have hkeys1 :
      ((record.filter (fun kv => kv.2 ≠ JSValue.jsNull)).map Prod.fst).Nodup :=
    List.Nodup.sublist
      (List.Sublist.map Prod.fst (List.filter_sublist record)) hrec
  have hpairs :
      ((convertObjectToSQLite
        (record.filter (fun kv => kv.2 ≠ JSValue.jsNull))).map
          Prod.fst).Nodup := by
    rw [convertObjectToSQLite_keys]
    exact hkeys1
  have hrec1 :=
    lookup_filter_value (fun v => v ≠ JSValue.jsNull) record k hrec
  have hout : (updateRecord rows record rowMatches).1.getD i [] =
      (if rowMatches (rows.getD i []) then
        applyFieldUpdates (rows.getD i [])
          (convertObjectToSQLite
            (record.filter (fun kv => kv.2 ≠ JSValue.jsNull)))
       else rows.getD i []) := by
    simp only [updateRecord]
    apply getD_map_row
    cases hm : rowMatches []
    · simp
    · simp [applyFieldUpdates_nil_row]
  refine ⟨?_, ?_, ?_, ?_⟩
  · intro h
    rw [hout, if_neg (by simp only [h]; simp)]
  · intro hnull
    rw [hout]
    cases hm : rowMatches (rows.getD i [])
    · rfl
    · rw [if_pos rfl]
      rw [applyFieldUpdates_lookup _ _ _ hpairs]
      rw [convertObjectToSQLite_lookup, hrec1, hnull]
      simp
  · intro hnone
    rw [hout]
    cases hm : rowMatches (rows.getD i [])
    · rfl
    · rw [if_pos rfl]
      rw [applyFieldUpdates_lookup _ _ _ hpairs]
      rw [convertObjectToSQLite_lookup, hrec1, hnone]
      simp
  · intro v hv hvnull hm
    rw [hout, if_pos hm]
    rw [applyFieldUpdates_lookup _ _ _ hpairs]
    rw [convertObjectToSQLite_lookup, hrec1, hv]
    simp [hvnull]

/-- C6 witness: updating with status null and name X leaves the status
column unchanged and sets the name column to the quoted literal. -/
theorem updateRecord_spec_witness :
    ((updateRecord
        [[("status", SQLiteLit.text "s0"), ("name", SQLiteLit.text "n0")]]
        [("status", JSValue.jsNull), ("name", JSValue.str "X")]
        (fun _ => true)).1.getD 0 []).lookup "status" =
      some (SQLiteLit.text "s0") ∧
    ((updateRecord
        [[("status", SQLiteLit.text "s0"), ("name", SQLiteLit.text "n0")]]
        [("status", JSValue.jsNull), ("name", JSValue.str "X")]
        (fun _ => true)).1.getD 0 []).lookup "name" =
      some (convertValue (JSValue.str "X")) := by
  constructor
  · have h := (updateRecord_spec
      [[("status", SQLiteLit.text "s0"), ("name", SQLiteLit.text "n0")]]
      [("status", JSValue.jsNull), ("name", JSValue.str "X")]
      (fun _ => true) 0 "status" (by decide)).2.1 (by decide)
    rw [h]
    decide
  · have h := (updateRecord_spec
      [[("status", SQLiteLit.text "s0"), ("name", SQLiteLit.text "n0")]]
      [("status", JSValue.jsNull), ("name", JSValue.str "X")]
      (fun _ => true) 0 "name" (by decide)).2.2.2 (JSValue.str "X")
      (by decide) (by decide) rfl
    rw [h]
    rw [show List.lookup "name"
      (([[("status", SQLiteLit.text "s0"),
          ("name", SQLiteLit.text "n0")]] : List Row).getD 0 []) =
        some (SQLiteLit.text "n0") from by decide]
    rfl

/-- C10: `updateRecord` mutates its caller-supplied record argument in
place (modelled as the record state it returns): after the call every
key whose value was null is gone from the caller's object, every other
key keeps its value, and no key appears that was absent before. -/
theorem updateRecord_mutates_argument (rows : List Row)
    (record : List (String × JSValue)) (rowMatches : Row → Bool)
    (k : String) (hrec : (record.map Prod.fst).Nodup) :
    (record.lookup k = some JSValue.jsNull →
      ((updateRecord rows record rowMatches).2).lookup k = none) ∧
    (∀ v, record.lookup k = some v → v ≠ JSValue.jsNull →
      ((updateRecord rows record rowMatches).2).lookup k = some v) ∧
    (record.lookup k = none →
      ((updateRecord rows record rowMatches).2).lookup k = none) := by
  have hrec1 :=
    lookup_filter_value (fun v => v ≠ JSValue.jsNull) record k hrec
  have hsnd : (updateRecord rows record rowMatches).2 =
      record.filter (fun kv => kv.2 ≠ JSValue.jsNull) := rfl
  rw [hsnd]
  refine ⟨?_, ?_, ?_⟩
  · intro hnull
    rw [hrec1, hnull]
    simp
  · intro v hv hvnull
    rw [hrec1, hv]
    simp [hvnull]
  · intro hnone
    rw [hrec1, hnone]
    rfl

/-- C10 witness: after the call the caller's object has lost its
null-valued key and kept the other. -/
theorem updateRecord_mutates_argument_witness :
    ((updateRecord
        [[("status", SQLiteLit.text "s0")]]
        [("status", JSValue.jsNull), ("name", JSValue.str "X")]
        (fun _ => true)).2).lookup "status" = none ∧
    ((updateRecord
        [[("status", SQLiteLit.text "s0")]]
        [("status", JSValue.jsNull), ("name", JSValue.str "X")]
        (fun _ => true)).2).lookup "name" = some (JSValue.str "X") := by
  constructor
  · exact (updateRecord_mutates_argument
      [[("status", SQLiteLit.text "s0")]]
      [("status", JSValue.jsNull), ("name", JSValue.str "X")]
      (fun _ => true) "status" (by decide)).1 (by decide)
  · exact (updateRecord_mutates_argument
      [[("status", SQLiteLit.text "s0")]]
      [("status", JSValue.jsNull), ("name", JSValue.str "X")]
      (fun _ => true) "name" (by decide)).2.1 (JSValue.str "X") (by decide)
      (by decide)

/-- C7: `getRecords` with a missing (undefined or empty) where clause
rejects with the InvalidArgument condition, whatever the store
contents; `getAllRecords` can only fail with a storage error, never
with the InvalidArgument condition. -/
theorem getRecords_requires_whereClause (evalWhere : String → Row → Bool)
    (db : Database) (tableName : String) (whereClause : Option String) :
    (strArgFalsy whereClause = true →
      getRecords evalWhere db tableName whereClause =
        Except.error (DBFailure.invalidArgument
          "Specify where clause or use \x22getAllRecords\x22 instead.")) ∧
    (∀ e, getAllRecords db tableName = Except.error e →
      e.isInvalidArgument = false) := by
  constructor
  · intro h
    unfold getRecords
    rw [if_pos h]
  · intro e he
    cases hlk : db.lookup tableName with
    | some t =>
        have hok : getAllRecords db tableName = Except.ok t.rows := by
          unfold getAllRecords
          rw [hlk]
        rw [hok] at he
        cases he
    | none =>
        have herr : getAllRecords db tableName =
            Except.error (DBFailure.storage
              ("no such table: " ++ tableName)) := by
          unfold getAllRecords
          rw [hlk]
        rw [herr] at he
        injection he with h2
        subst h2
        rfl

/-- C7 witness: `getRecords` on an undefined clause rejects with
InvalidArgument; the storage error `getAllRecords` can produce is not
the InvalidArgument condition. -/
theorem getRecords_requires_whereClause_witness :
    getRecords (fun _ _ => true) [] "Survey" none =
      Except.error (DBFailure.invalidArgument
        "Specify where clause or use \x22getAllRecords\x22 instead.") ∧
    (DBFailure.storage ("no such table: " ++ "Survey")).isInvalidArgument =
      false := by
  constructor
  · exact (getRecords_requires_whereClause (fun _ _ => true) [] "Survey"
      none).1 rfl
  · exact (getRecords_requires_whereClause (fun _ _ => true) [] "Survey"
      none).2 (DBFailure.storage ("no such table: " ++ "Survey")) rfl

theorem syncLocalSurveys_foldl (remoteOk : LocalSurvey → Bool)
    (ss : List LocalSurvey) :
    ∀ acc : List LocalSurvey × Nat × Nat,
    (ss.foldl
      (fun acc s =>
        if remoteOk s then
          (acc.1 ++ [{ s with syncStatus := SyncStatus.synced }],
           acc.2.1 + 1, acc.2.2)
        else
          (acc.1 ++ [s], acc.2.1, acc.2.2 + 1))
      acc) =
      (acc.1 ++ ss.map (fun s =>
        if remoteOk s then { s with syncStatus := SyncStatus.synced } else s),
       acc.2.1 + ss.countP remoteOk,
       acc.2.2 + ss.countP (fun s => !remoteOk s)) := by
  induction ss with
  | nil =>
      intro acc
      simp
  | cons s rest ih =>
      intro acc
      simp only [List.foldl_cons, List.map_cons, List.countP_cons]
      cases h : remoteOk s
      · rw [if_neg (by simp [h])]
        rw [ih]
        simp [h]
        omega
      · rw [if_pos (by simp [h])]
        rw [ih]
        simp [h]
        omega

/-- C4: the Sync Reconciler walks the given records in order: a record
whose remote call succeeds becomes SYNCED, a record whose remote call
fails is left exactly as it was (still UNSYNCED) without stopping the
walk; the reported counts are the numbers of succeeded and failed
records, and no record is ever deleted (the output list maps the input
list one to one). In particular, for 3 UNSYNCED records where only
record 2 fails remotely the result is 2 succeeded, 1 failed, with
records 1 and 3 SYNCED and record 2 still UNSYNCED. -/
theorem syncLocalSurveys_spec (remoteOk : LocalSurvey → Bool)
    (surveys : List LocalSurvey) :
    syncLocalSurveys remoteOk surveys =
      (surveys.map (fun s =>
        if remoteOk s then { s with syncStatus := SyncStatus.synced } else s),
       surveys.countP remoteOk,
       surveys.countP (fun s => !remoteOk s)) ∧
    (syncLocalSurveys remoteOk surveys).1.length = surveys.length ∧
    syncLocalSurveys (fun s => s.localId != 2)
        [⟨1, SyncStatus.unsynced, []⟩, ⟨2, SyncStatus.unsynced, []⟩,
         ⟨3, SyncStatus.unsynced, []⟩] =
      ([⟨1, SyncStatus.synced, []⟩, ⟨2, SyncStatus.unsynced, []⟩,
        ⟨3, SyncStatus.synced, []⟩], 2, 1) := by
  have h := syncLocalSurveys_foldl remoteOk surveys ([], 0, 0)
  have hmain : syncLocalSurveys remoteOk surveys =
      (surveys.map (fun s =>
        if remoteOk s then { s with syncStatus := SyncStatus.synced }
        else s),
       surveys.countP remoteOk,
       surveys.countP (fun s => !remoteOk s)) := by
    unfold syncLocalSurveys
    rw [h]
    simp
  refine ⟨hmain, ?_, ?_⟩
  · rw [hmain]
    simp
  · decide

/-! ### Lemmas about the autoincrement table model -/

theorem insertWithLocalId_ids_spec (rs : List (List (String × JSValue))) :
    ∀ t : Table,
    (insertWithLocalId t rs).1.seq = t.seq + rs.length ∧
    (∀ i ∈ (insertWithLocalId t rs).2, t.seq < i ∧ i ≤ t.seq + rs.length) ∧
    (insertWithLocalId t rs).2.Pairwise (· < ·) := by
  induction rs with
  | nil =>
      intro t
      refine ⟨rfl, ?_, ?_⟩
      · intro i hi
        simp [insertWithLocalId] at hi
      · simp [insertWithLocalId]
  | cons r rest ih =>
      intro t
      obtain ⟨ihseq, ihmem, ihpw⟩ := ih (insertRowStep t r)
      have hstep : (insertRowStep t r).seq = t.seq + 1 := rfl
      rw [hstep] at ihseq ihmem
      refine ⟨?_, ?_, ?_⟩
      · show (insertWithLocalId (insertRowStep t r) rest).1.seq = _
        rw [ihseq]
        simp [List.length_cons]
        omega
      · intro i hi
        simp only [insertWithLocalId, List.mem_cons] at hi
        rcases hi with hi | hi
        · subst hi
          simp [List.length_cons]
        · have := ihmem i hi
          simp [List.length_cons]
          omega
      · show ((t.seq + 1) ::
          (insertWithLocalId (insertRowStep t r) rest).2).Pairwise (· < ·)
        refine List.Pairwise.cons ?_ ihpw
        intro j hj
        have := ihmem j hj
        omega

theorem currentLocalIds_insertRowStep (t : Table)
    (r : List (String × JSValue)) :
    currentLocalIds (insertRowStep t r) =
      currentLocalIds t ++ [t.seq + 1] := by
  show (t.rows ++
      [("_localId", SQLiteLit.int (Int.ofNat (t.seq + 1))) ::
        convertObjectToSQLite r]).filterMap localIdOfRow =
    t.rows.filterMap localIdOfRow ++ [t.seq + 1]
  rw [List.filterMap_append]
  congr 1

theorem currentLocalIds_insert (rs : List (List (String × JSValue))) :
    ∀ t : Table,
    currentLocalIds (insertWithLocalId t rs).1 =
      currentLocalIds t ++ (insertWithLocalId t rs).2 := by
  induction rs with
  | nil =>
      intro t
      simp [insertWithLocalId]
  | cons r rest ih =>
      intro t
      show currentLocalIds (insertWithLocalId (insertRowStep t r) rest).1 =
        currentLocalIds t ++
          ((t.seq + 1) :: (insertWithLocalId (insertRowStep t r) rest).2)
      rw [ih (insertRowStep t r), currentLocalIds_insertRowStep]
      simp

theorem currentLocalIds_deleteRow_sublist (t : Table) (id : Nat) :
    (currentLocalIds (deleteRow t id)).Sublist (currentLocalIds t) :=
  List.Sublist.filterMap localIdOfRow (List.filter_sublist t.rows)

theorem deleteRow_seq (t : Table) (id : Nat) :
    (deleteRow t id).seq = t.seq := rfl

theorem runOps_spec (ops : List StoreOp) : ∀ t : Table, TableInv t →
    TableInv (runOps t ops).1 ∧
    (runOps t ops).2.Pairwise (· < ·) ∧
    (∀ i ∈ (runOps t ops).2, t.seq < i ∧ i ≤ (runOps t ops).1.seq) ∧
    t.seq ≤ (runOps t ops).1.seq := by
  induction ops with
  | nil =>
      intro t ht
      refine ⟨ht, ?_, ?_, le_refl _⟩
      · simp [runOps]
      · intro i hi
        simp [runOps] at hi
  | cons op rest ih =>
      intro t ht
      cases op with
      | save rs =>
          obtain ⟨hseq, hmem, hpw⟩ := insertWithLocalId_ids_spec rs t
          have hcur := currentLocalIds_insert rs t
          have hinv1 : TableInv (insertWithLocalId t rs).1 := by
            constructor
            · rw [hcur]
              refine List.pairwise_append.mpr ⟨ht.1, hpw, ?_⟩
              intro a ha b hb
              have h1 := ht.2 a ha
              have h2 := (hmem b hb).1
              omega
            · rw [hcur, hseq]
              intro i hi
              rcases List.mem_append.mp hi with h | h
              · have := ht.2 i h
                omega
              · exact (hmem i h).2
          obtain ⟨ih1, ih2, ih3, ih4⟩ := ih (insertWithLocalId t rs).1 hinv1
          have hrun1 : (runOps t (StoreOp.save rs :: rest)).1 =
              (runOps (insertWithLocalId t rs).1 rest).1 := rfl
          have hrun2 : (runOps t (StoreOp.save rs :: rest)).2 =
              (insertWithLocalId t rs).2 ++
                (runOps (insertWithLocalId t rs).1 rest).2 := rfl
          refine ⟨?_, ?_, ?_, ?_⟩
          · rw [hrun1]
            exact ih1
          · rw [hrun2]
            refine List.pairwise_append.mpr ⟨hpw, ih2, ?_⟩
            intro a ha b hb
            have h1 := (hmem a ha).2
            have h2 := (ih3 b hb).1
            rw [hseq] at h2
            omega
          · rw [hrun1, hrun2]
            intro i hi
            rcases List.mem_append.mp hi with h | h
            · have h1 := hmem i h
              have h2 := ih4
              rw [hseq] at h2
              omega
            · have h1 := ih3 i h
              rw [hseq] at h1
              omega
          · rw [hrun1]
            rw [hseq] at ih4
            omega
      | delete id =>
          have hsub := currentLocalIds_deleteRow_sublist t id
          have hinv1 : TableInv (deleteRow t id) := by
            constructor
            · exact List.Pairwise.sublist hsub ht.1
            · intro i hi
              rw [deleteRow_seq]
              exact ht.2 i (hsub.subset hi)
          obtain ⟨ih1, ih2, ih3, ih4⟩ := ih (deleteRow t id) hinv1
          have hrun1 : (runOps t (StoreOp.delete id :: rest)).1 =
              (runOps (deleteRow t id) rest).1 := rfl
          have hrun2 : (runOps t (StoreOp.delete id :: rest)).2 =
              (runOps (deleteRow t id) rest).2 := rfl
          refine ⟨?_, ?_, ?_, ?_⟩
          · rw [hrun1]
            exact ih1
          · rw [hrun2]
            exact ih2
          · rw [hrun1, hrun2]
            intro i hi
            have := ih3 i hi
            rw [deleteRow_seq] at this
            exact this
          · rw [hrun1]
            rw [deleteRow_seq] at ih4
            exact ih4

/-- C9: over any session of bulk inserts and deletes against a table
created by `prepareTable` without an explicit primary key (whose DDL
therefore declares `_localId integer primary key autoincrement`), the
synthetic identifiers assigned to inserted rows are strictly increasing
over time — hence unique within the table — and an identifier is never
reused, even after its row is deleted. -/
theorem localId_increasing_never_reused (tableName : String)
    (mappings : List SQLiteFieldTypeMapping) (t0 : Table)
    (h0 : prepareTable [] tableName mappings none = [(tableName, t0)])
    (ops : List StoreOp) :
    (runOps t0 ops).2.Pairwise (· < ·) ∧
    (runOps t0 ops).2.Nodup ∧
    (currentLocalIds (runOps t0 ops).1).Nodup ∧
    t0.hasLocalId = true ∧
    (∃ rest, prepareTableFieldsClause mappings none =
      "_localId integer primary key autoincrement" ++ rest) := by
  have ht0 : t0 =
      { hasLocalId := true, schema := mappings, rows := [], seq := 0 } := by
    have h1 : prepareTable [] tableName mappings none =
        [(tableName,
          { hasLocalId := true, schema := mappings, rows := [],
            seq := 0 })] := rfl
    rw [h1] at h0
    injection h0 with hhead htail
    injection hhead with hfst hsnd
    exact hsnd.symm
  have hinv0 : TableInv t0 := by
    rw [ht0]
    constructor
    · simp [currentLocalIds]
    · intro i hi
      simp [currentLocalIds] at hi
  obtain ⟨hinv, hpw, hmem, hseq⟩ := runOps_spec ops t0 hinv0
  refine ⟨hpw, ?_, ?_, ?_, ?_⟩
  · exact hpw.imp (fun h => Nat.ne_of_lt h)
  · exact hinv.1.imp (fun h => Nat.ne_of_lt h)
  · rw [ht0]
  · refine ⟨"," ++ String.intercalate ","
      (mappings.map (fun field => field.name ++ " " ++ field.type)), ?_⟩
    unfold prepareTableFieldsClause
    have hpk : ∀ field : SQLiteFieldTypeMapping,
        (some field.name = (none : Option String)) = False := by
      intro field
      simp
    simp only [strArgFalsy, if_true, String.append_assoc]
    congr 1

/-- C9 witness: a concrete session — insert two rows, delete the first,
insert another — assigns the strictly increasing identifiers 1, 2, 3. -/
theorem localId_increasing_never_reused_witness :
    (runOps
      { hasLocalId := true,
        schema := [{ name := "name", type := "text" }], rows := [],
        seq := 0 }
      [StoreOp.save [[("name", JSValue.str "A")], [("name", JSValue.str "B")]],
       StoreOp.delete 1,
       StoreOp.save [[("name", JSValue.str "C")]]]).2.Pairwise (· < ·) :=
  (localId_increasing_never_reused "Survey"
    [{ name := "name", type := "text" }]
    { hasLocalId := true, schema := [{ name := "name", type := "text" }],
      rows := [], seq := 0 }
    rfl
    [StoreOp.save [[("name", JSValue.str "A")], [("name", JSValue.str "B")]],
     StoreOp.delete 1,
     StoreOp.save [[("name", JSValue.str "C")]]]).1

end Grassroots
